import Mathlib

set_option maxHeartbeats 1000000

/-!
Shallow embedding of the pigeon-hole service core: the key-value cache
(pkg/key_value/models.go), the user and permission model (pkg/users),
the token manager (pkg/tokens/list.go) and the auth manager persistence
(the auth package).  Go maps are modelled as association lists with
unique keys; wall-clock instants are natural numbers passed explicitly
where the source calls time.Now(); Go pointers to User structs are
modelled by a numeric address paired with the pointed-to value, so that
pointer equality (address comparison) and dereference are both
expressible.  Fallible methods return an Except paired with the
(possibly unchanged) receiver state.
-/

/-- Error values used by the service, mirroring pkg/errors/mod.go. -/
inductive GoError where
  | keyExists
  | keyNotFound
  | notPermitted
  | tokenInvalid
  | tokenExpired
  deriving DecidableEq, Repr

/-- Lookup m[key] in a Go map modelled as an association list. -/
def mapGet {α : Type} : List (String × α) → String → Option α
  | [], _ => none
  | (k, v) :: rest, key => if k = key then some v else mapGet rest key

/-- Assignment m[key] = v in a Go map: replace the binding if present, else append. -/
def mapSet {α : Type} : List (String × α) → String → α → List (String × α)
  | [], key, v => [(key, v)]
  | (k, w) :: rest, key, v =>
    if k = key then (key, v) :: rest else (k, w) :: mapSet rest key v

/-- delete(m, key) on a Go map: remove the binding of key. -/
def mapDel {α : Type} : List (String × α) → String → List (String × α)
  | [], _ => []
  | (k, w) :: rest, key =>
    if k = key then mapDel rest key else (k, w) :: mapDel rest key

/-- Per-action permission flags, mirroring users.Permissions. -/
structure Permissions where
  Select : Bool
  Insert : Bool
  Update : Bool
  Delete : Bool
  deriving DecidableEq, Repr

/-- Owned-versus-all permission sets, mirroring users.Privileges. -/
structure Privileges where
  Owned : Permissions
  All : Permissions
  deriving DecidableEq, Repr

/-- A user record, mirroring users.User.  The UUID is modelled by its
string rendering, and the password digest by a byte list. -/
structure User where
  Uuid : String
  Name : String
  Email : String
  HashedPass : List Nat
  Privileges : Privileges
  deriving DecidableEq, Repr

/-- users.ReadOnlyPermissions. -/
def ReadOnlyPermissions : Permissions :=
  { Select := true, Insert := false, Update := false, Delete := false }

/-- users.NoPermissions. -/
def NoPermissions : Permissions :=
  { Select := false, Insert := false, Update := false, Delete := false }

/-- users.FullPermissions. -/
def FullPermissions : Permissions :=
  { Select := true, Insert := true, Update := true, Delete := true }

/-- users.StandardUser preset privileges. -/
def StandardUser : Privileges := { Owned := FullPermissions, All := ReadOnlyPermissions }

/-- users.RestrictedUser preset privileges. -/
def RestrictedUser : Privileges := { Owned := FullPermissions, All := NoPermissions }

/-- users.ReadOnlyUser preset privileges. -/
def ReadOnlyUser : Privileges := { Owned := ReadOnlyPermissions, All := NoPermissions }

/-- users.AdminUser preset privileges. -/
def AdminUser : Privileges := { Owned := FullPermissions, All := FullPermissions }

/-- users.User.CanSelect. -/
def User.CanSelect (u : User) (isOwner : Bool) : Bool :=
  u.Privileges.All.Select || (isOwner && u.Privileges.Owned.Select)

/-- users.User.CanInsert. -/
def User.CanInsert (u : User) (isOwner : Bool) : Bool :=
  u.Privileges.All.Insert || (isOwner && u.Privileges.Owned.Insert)

/-- users.User.CanUpdate. -/
def User.CanUpdate (u : User) (isOwner : Bool) : Bool :=
  u.Privileges.All.Update || (isOwner && u.Privileges.Owned.Update)

/-- users.User.CanDelete. -/
def User.CanDelete (u : User) (isOwner : Bool) : Bool :=
  u.Privileges.All.Delete || (isOwner && u.Privileges.Owned.Delete)

/-- A Go pointer to a string field: the address of the enclosing struct
together with the pointed-to value.  Two live pointers are equal exactly
when their addresses coincide. -/
structure StrPtr where
  addr : Nat
  val : String
  deriving DecidableEq, Repr

/-- A Go pointer to a users.User struct: a numeric address plus the
pointed-to record.  Distinct live User structs have distinct addresses. -/
structure UserRef where
  addr : Nat
  user : User
  deriving DecidableEq, Repr

/-- The Go expression taking the address of the Email field of a User struct. -/
def UserRef.emailPtr (u : UserRef) : StrPtr := { addr := u.addr, val := u.user.Email }

/-- The Go expression taking the address of the Name field of a User struct. -/
def UserRef.namePtr (u : UserRef) : StrPtr := { addr := u.addr, val := u.user.Name }

/-- Go pointer comparison of a possibly nil stored owner-email pointer
against the (never nil) address of the Email field of a requester: true
exactly when both are non-nil and the addresses coincide. -/
def ownerPtrEq : Option StrPtr → StrPtr → Bool
  | none, _ => false
  | some p, q => p.addr == q.addr

/-- Go nil test on a stored owner-email pointer. -/
def isNilPtr : Option StrPtr → Bool
  | none => true
  | some _ => false

/-- keyValue.KeyValueTimestamps, with instants as naturals. -/
structure KeyValueTimestamps where
  CreatedAt : Nat
  DeliveredAt : Nat
  deriving DecidableEq, Repr

/-- keyValue.KeyValueOwnership: both fields are nullable string pointers. -/
structure KeyValueOwnership where
  Email : Option StrPtr
  Name : Option StrPtr
  deriving DecidableEq, Repr

/-- keyValue.KeyValueDelivery, with the byte value as a Nat list. -/
structure KeyValueDelivery where
  Value : List Nat
  Timestamps : KeyValueTimestamps
  Ownership : KeyValueOwnership
  deriving DecidableEq, Repr

/-- keyValue.KeyValueCache: the per-entry and table locks of the source
serialize access and carry no data, so the sequential model is the map
alone. -/
structure KeyValueCache where
  Contents : List (String × KeyValueDelivery)
  deriving DecidableEq, Repr

/-- keyValue.NewCache. -/
def NewCache : KeyValueCache := { Contents := [] }

/-- keyValue.KeyValueCache.Get: permissionless fetch. -/
def KeyValueCache.Get (kvc : KeyValueCache) (key : String) :
    Except GoError KeyValueDelivery :=
  match mapGet kvc.Contents key with
  | none => .error .keyNotFound
  | some found => .ok found

/-- keyValue.KeyValueCache.Length. -/
def KeyValueCache.Length (kvc : KeyValueCache) : Nat := kvc.Contents.length

/-- keyValue.KeyValueCache.LockAndDo: look the key up, run the operation
on the entry, and on success write the possibly reassigned entry back to
the table; on failure the table is left as it was. -/
def KeyValueCache.LockAndDo (kvc : KeyValueCache) (key : String)
    (operation : KeyValueDelivery → Except GoError KeyValueDelivery) :
    Except GoError Unit × KeyValueCache :=
  match mapGet kvc.Contents key with
  | none => (.error .keyNotFound, kvc)
  | some entry =>
    match operation entry with
    | .error e => (.error e, kvc)
    | .ok changed => (.ok (), { Contents := mapSet kvc.Contents key changed })

/-- keyValue.KeyValueCache.GetValue: authorization-checked read.  The
is-owner argument passed to CanSelect is the Go pointer comparison of the
stored owner email pointer with the address of the requesting user's
Email field. -/
def KeyValueCache.GetValue (kvc : KeyValueCache) (key : String) (user : UserRef) :
    Except GoError KeyValueDelivery :=
  match kvc.Get key with
  | .ok delivery =>
    if user.user.CanSelect (ownerPtrEq delivery.Ownership.Email user.emailPtr) then
      .ok delivery
    else
      .error .notPermitted
  | .error e => .error e

/-- keyValue.KeyValueCache.Put: create a key, failing with keyExists if present;
the error path leaves the receiver untouched. -/
def KeyValueCache.Put (kvc : KeyValueCache) (key : String) (value : KeyValueDelivery) :
    Except GoError Unit × KeyValueCache :=
  match mapGet kvc.Contents key with
  | some _ => (.error .keyExists, kvc)
  | none => (.ok (), { Contents := mapSet kvc.Contents key value })

/-- keyValue.KeyValueCache.PutValueWithOwner: permission-checked insert.
Note the two extra facts visible in the source: a requester with an empty
email is always refused, and the is-owner argument here is value equality
of the two Email strings (not pointer equality).  The stored ownership
records the addresses of the owner struct's Email and Name fields. -/
def KeyValueCache.PutValueWithOwner (kvc : KeyValueCache) (key : String)
    (value : List Nat) (owner : UserRef) (user : UserRef) (now : Nat) :
    Except GoError Unit × KeyValueCache :=
  if user.user.Email == "" || !(user.user.CanInsert (owner.user.Email == user.user.Email)) then
    (.error .notPermitted, kvc)
  else
    kvc.Put key
      { Value := value
        Timestamps := { CreatedAt := now, DeliveredAt := 0 }
        Ownership := { Email := some owner.emailPtr, Name := some owner.namePtr } }

/-- keyValue.KeyValueCache.PutValue: insert with the requester as owner. -/
def KeyValueCache.PutValue (kvc : KeyValueCache) (key : String) (value : List Nat)
    (user : UserRef) (now : Nat) : Except GoError Unit × KeyValueCache :=
  kvc.PutValueWithOwner key value user user now

/-- keyValue.KeyValueCache.Update: permissionless update of value and CreatedAt. -/
def KeyValueCache.Update (kvc : KeyValueCache) (key : String)
    (value : KeyValueDelivery) (now : Nat) : Except GoError Unit × KeyValueCache :=
  kvc.LockAndDo key (fun delivery =>
    .ok { delivery with
            Value := value.Value
            Timestamps := { delivery.Timestamps with CreatedAt := now } })

/-- keyValue.KeyValueCache.UpdateValue: permission-checked update.  A nil
stored owner email short-circuits the permission check; otherwise the
is-owner argument to CanUpdate is the Go pointer comparison of the stored
owner email pointer with the address of the requester's Email field. -/
def KeyValueCache.UpdateValue (kvc : KeyValueCache) (key : String)
    (value : List Nat) (user : UserRef) (now : Nat) :
    Except GoError Unit × KeyValueCache :=
  kvc.LockAndDo key (fun delivery =>
    if isNilPtr delivery.Ownership.Email
        || user.user.CanUpdate (ownerPtrEq delivery.Ownership.Email user.emailPtr) then
      .ok { delivery with
              Value := value
              Timestamps := { delivery.Timestamps with CreatedAt := now } }
    else
      .error .notPermitted)

/-- keyValue.KeyValueCache.PutOrUpdate: try Put, and on any error fall back
to Update. -/
def KeyValueCache.PutOrUpdate (kvc : KeyValueCache) (key : String)
    (value : KeyValueDelivery) (now : Nat) : Except GoError Unit × KeyValueCache :=
  match kvc.Put key value with
  | (.error _, kvc2) => kvc2.Update key value now
  | (.ok _, kvc2) => (.ok (), kvc2)

/-- keyValue.KeyValueCache.PutOrUpdateValue: try PutValue, and on any
error whatsoever fall back to UpdateValue. -/
def KeyValueCache.PutOrUpdateValue (kvc : KeyValueCache) (key : String)
    (value : List Nat) (user : UserRef) (now : Nat) :
    Except GoError Unit × KeyValueCache :=
  match kvc.PutValue key value user now with
  | (.error _, kvc2) => kvc2.UpdateValue key value user now
  | (.ok _, kvc2) => (.ok (), kvc2)

/-- keyValue.KeyValueCache.Delete: permissionless removal. -/
def KeyValueCache.Delete (kvc : KeyValueCache) (key : String) :
    Except GoError Unit × KeyValueCache :=
  match mapGet kvc.Contents key with
  | none => (.error .keyNotFound, kvc)
  | some _ => (.ok (), { Contents := mapDel kvc.Contents key })

/-- keyValue.KeyValueCache.DeleteValue: permission-checked removal
returning the removed delivery.  The nil-owner short circuit and the
pointer-based is-owner argument match UpdateValue. -/
def KeyValueCache.DeleteValue (kvc : KeyValueCache) (key : String) (user : UserRef) :
    Except GoError KeyValueDelivery × KeyValueCache :=
  match kvc.Get key with
  | .error e => (.error e, kvc)
  | .ok delivery =>
    if isNilPtr delivery.Ownership.Email
        || user.user.CanDelete (ownerPtrEq delivery.Ownership.Email user.emailPtr) then
      match kvc.Delete key with
      | (.error e, kvc2) => (.error e, kvc2)
      | (.ok _, kvc2) => (.ok delivery, kvc2)
    else
      (.error .notPermitted, kvc)

/-- tokens.TokenData: the token string, a pointer to the owning user, and
the expiry instant. -/
structure TokenData where
  Token : String
  User : UserRef
  Expiry : Nat
  deriving DecidableEq, Repr

/-- tokens.TokenManager: the token table and the configured lifetime. -/
structure TokenManager where
  tokens : List (String × TokenData)
  expiration : Nat
  deriving DecidableEq, Repr

/-- tokens.NewTokenManager. -/
def NewTokenManager (expiration : Nat) : TokenManager :=
  { tokens := [], expiration := expiration }

/-- tokens.TokenManager.CreateToken.  The token argument stands for the
fresh output of GenerateToken, whose cryptographically random choice is
external to the model; the entropy-failure early return mutates nothing
and is omitted.  The new entry expires at now plus the configured
lifetime. -/
def TokenManager.CreateToken (tm : TokenManager) (user : UserRef) (token : String)
    (now : Nat) : TokenData × TokenManager :=
  let tokenData : TokenData := { Token := token, User := user, Expiry := now + tm.expiration }
  (tokenData, { tm with tokens := mapSet tm.tokens token tokenData })

/-- tokens.TokenManager.GetToken: an unknown token is tokenInvalid, a
known token whose expiry lies strictly before now is tokenExpired, and
otherwise the stored data is returned; the table itself is returned
untouched in every case, as the source only ever reads it. -/
def TokenManager.GetToken (tm : TokenManager) (token : String) (now : Nat) :
    Except GoError TokenData × TokenManager :=
  match mapGet tm.tokens token with
  | some data =>
    if data.Expiry < now then (.error .tokenExpired, tm) else (.ok data, tm)
  | none => (.error .tokenInvalid, tm)

/-- tokens.TokenManager.DeleteToken. -/
def TokenManager.DeleteToken (tm : TokenManager) (token : String) :
    Except GoError Unit × TokenManager :=
  match mapGet tm.tokens token with
  | some _ => (.ok (), { tm with tokens := mapDel tm.tokens token })
  | none => (.error .tokenInvalid, tm)

/-- users.UserOptions, with the token lifetime as a natural duration. -/
structure UserOptions where
  Salt : String
  TokenExpiration : Nat
  deriving DecidableEq, Repr

/-- auth.AuthManager: name, last-modified timestamp, the user table keyed
by email, the live token manager and the runtime options.  The latter two
carry the json dash tag in the source and are never persisted. -/
structure AuthManager where
  Name : String
  Timestamp : Nat
  Users : List (String × User)
  Tokens : TokenManager
  Options : UserOptions
  deriving DecidableEq, Repr

/-- The JSON document produced by marshalling an AuthManager: exactly the
fields without a json dash tag, namely the name, the timestamp and the
user table (each User serializing all of its fields).  Marshalling
followed by unmarshalling is modelled as the identity on these fields. -/
structure AuthSnapshot where
  name : String
  timestamp : Nat
  users : List (String × User)
  deriving DecidableEq, Repr

/-- auth.AuthManager.UpdateTimestamp. -/
def AuthManager.UpdateTimestamp (ul : AuthManager) (now : Nat) : AuthManager :=
  { ul with Timestamp := now }

/-- auth.AuthManager.ExportTo: refresh the timestamp on the live manager,
then marshal it; the write of the resulting bytes to disk is external to
the model, so the marshalled document is returned alongside the mutated
manager. -/
def AuthManager.ExportTo (ul : AuthManager) (now : Nat) : AuthSnapshot × AuthManager :=
  let ul2 := ul.UpdateTimestamp now
  ({ name := ul2.Name, timestamp := ul2.Timestamp, users := ul2.Users }, ul2)

/-- auth.ImportFrom applied to a readable, well-formed persisted document:
unmarshal the snapshot, then reinitialize the unserialized options and
token manager from the runtime configuration. -/
def ImportFrom (snapshot : AuthSnapshot) (options : UserOptions) : AuthManager :=
  { Name := snapshot.name
    Timestamp := snapshot.timestamp
    Users := snapshot.users
    Options := options
    Tokens := NewTokenManager options.TokenExpiration }

/-- users.genHashedPass: join the UUID rendering, the plaintext password
and the global salt with a pipe, then hash the result.  The sha256
compression itself is opaque to every claim, so it is abstracted as an
explicit function argument used consistently throughout. -/
def genHashedPass (hash : String → List Nat) (uuid : String) (password : String)
    (options : UserOptions) : List Nat :=
  hash (String.intercalate "|" [uuid, password, options.Salt])

/-- users.User.SetPassword. -/
def User.SetPassword (u : User) (hash : String → List Nat) (password : String)
    (options : UserOptions) : User :=
  { u with HashedPass := genHashedPass hash u.Uuid password options }

/-- users.User.CheckPassword: byte-for-byte comparison of the stored
digest against the recomputed one. -/
def User.CheckPassword (u : User) (hash : String → List Nat) (password : String)
    (options : UserOptions) : Bool :=
  u.HashedPass == genHashedPass hash u.Uuid password options

/-- A restricted user record used as a concrete evaluation point for the
ownership comparison. -/
def daveUser : User :=
  { Uuid := "d1", Name := "Dave", Email := "dave@test.com", HashedPass := [],
    Privileges := RestrictedUser }

/-- The User struct instance live at insert time. -/
def daveAtInsert : UserRef := { addr := 0, user := daveUser }

/-- A second User struct with field values identical to daveUser but
living at a different address, as produced for example by reloading the
user registry from disk. -/
def daveCopy : UserRef := { addr := 1, user := daveUser }

/-- The cache state after daveAtInsert inserts the key note1. -/
def cacheAfterDaveInsert : KeyValueCache :=
  (NewCache.PutValueWithOwner "note1" [104] daveAtInsert daveAtInsert 7).2

/-- A user with no privileges at all, used as a concrete evaluation point. -/
def bobNoPerm : UserRef :=
  { addr := 2,
    user := { Uuid := "b1", Name := "Bob", Email := "bob@test.com", HashedPass := [],
              Privileges := { Owned := NoPermissions, All := NoPermissions } } }

/-- An administrator whose email is the empty string, used as a concrete
evaluation point. -/
def emptyEmailAdmin : UserRef :=
  { addr := 3,
    user := { Uuid := "r1", Name := "Root", Email := "", HashedPass := [],
              Privileges := AdminUser } }

/-- A standard user used as a concrete evaluation point. -/
def aliceRef : UserRef :=
  { addr := 5,
    user := { Uuid := "a1", Name := "Alice", Email := "alice@test.com", HashedPass := [],
              Privileges := StandardUser } }

/-- A delivery with no recorded owner, as produced by the raw Put API. -/
def dNilOwner : KeyValueDelivery :=
  { Value := [1, 2], Timestamps := { CreatedAt := 1, DeliveredAt := 0 },
    Ownership := { Email := none, Name := none } }

/-- A token table holding one token issued to aliceRef at instant 0 with
lifetime 10. -/
def tmSample : TokenManager := ((NewTokenManager 10).CreateToken aliceRef "tok" 0).2

theorem mapGet_mapSet_self {α : Type} (m : List (String × α)) (k : String) (v : α) :
    mapGet (mapSet m k v) k = some v := by
  induction m with
  | nil => simp [mapGet, mapSet]
  | cons hd tl ih =>
    obtain ⟨k1, v1⟩ := hd
    by_cases h : k1 = k <;> simp [mapGet, mapSet, h, ih]

theorem mapGet_mapSet_ne {α : Type} (m : List (String × α)) (k k2 : String) (v : α)
    (h : k2 ≠ k) : mapGet (mapSet m k v) k2 = mapGet m k2 := by
  induction m with
  | nil => simp [mapGet, mapSet, Ne.symm h]
  | cons hd tl ih =>
    obtain ⟨k1, v1⟩ := hd
    by_cases h1 : k1 = k
    · subst h1
      simp [mapGet, mapSet, Ne.symm h]
    · simp [mapGet, mapSet, h1, ih]

theorem mapGet_mapDel_self {α : Type} (m : List (String × α)) (k : String) :
    mapGet (mapDel m k) k = none := by
  induction m with
  | nil => simp [mapGet, mapDel]
  | cons hd tl ih =>
    obtain ⟨k1, v1⟩ := hd
    by_cases h : k1 = k <;> simp [mapGet, mapDel, h, ih]

/-- Claim C6: Put on a key already present in the store fails with
keyExists and returns the store completely unchanged, so the existing
entry (value, timestamps, ownership) and the key count are untouched. -/
theorem put_on_existing_key_fails_and_preserves_cache
    (kvc : KeyValueCache) (key : String) (value d : KeyValueDelivery)
    (h : mapGet kvc.Contents key = some d) :
    kvc.Put key value = (.error .keyExists, kvc) := by
  simp [KeyValueCache.Put, h]

/-- Witness for claim C6 at a one-entry store. -/
theorem put_on_existing_key_fails_and_preserves_cache_witness :
    KeyValueCache.Put { Contents := [("k", dNilOwner)] } "k" dNilOwner
      = (.error .keyExists, { Contents := [("k", dNilOwner)] }) :=
  put_on_existing_key_fails_and_preserves_cache
    { Contents := [("k", dNilOwner)] } "k" dNilOwner dNilOwner (by decide)

/-- Claim C7: a successful UpdateValue replaces the entry value with the
new value and refreshes CreatedAt to the current instant, while leaving
the ownership record, the DeliveredAt timestamp and every other key of
the store unchanged. -/
theorem updateValue_success_frame
    (kvc kvc2 : KeyValueCache) (key : String) (value : List Nat)
    (user : UserRef) (now : Nat)
    (h : kvc.UpdateValue key value user now = (.ok (), kvc2)) :
    ∃ d d2, mapGet kvc.Contents key = some d
      ∧ mapGet kvc2.Contents key = some d2
      ∧ d2.Value = value
      ∧ d2.Timestamps.CreatedAt = now
      ∧ d2.Timestamps.DeliveredAt = d.Timestamps.DeliveredAt
      ∧ d2.Ownership = d.Ownership
      ∧ ∀ k2, k2 ≠ key → mapGet kvc2.Contents k2 = mapGet kvc.Contents k2 := by
  unfold KeyValueCache.UpdateValue KeyValueCache.LockAndDo at h
  cases hg : mapGet kvc.Contents key with
  | none => rw [hg] at h; exact absurd h (by simp)
  | some d =>
    rw [hg] at h
    by_cases hcond : (isNilPtr d.Ownership.Email
        || user.user.CanUpdate (ownerPtrEq d.Ownership.Email user.emailPtr)) = true
    · simp only [hcond, if_true] at h
      injection h with h1 h2
      refine ⟨d, { d with Value := value,
                          Timestamps := { d.Timestamps with CreatedAt := now } },
                rfl, ?_, rfl, rfl, rfl, rfl, ?_⟩
      · rw [← h2]
        exact mapGet_mapSet_self kvc.Contents key _
      · intro k2 hk2
        rw [← h2]
        exact mapGet_mapSet_ne kvc.Contents key k2 _ hk2
    · rw [Bool.not_eq_true] at hcond
      simp only [hcond] at h
      exact absurd h (by simp)

/-- Witness for claim C7 at a one-entry store with a nil owner. -/
theorem updateValue_success_frame_witness :
    ∃ d d2,
      mapGet (KeyValueCache.Contents { Contents := [("k", dNilOwner)] }) "k" = some d
      ∧ mapGet (KeyValueCache.UpdateValue { Contents := [("k", dNilOwner)] }
          "k" [7] aliceRef 5).2.Contents "k" = some d2
      ∧ d2.Value = [7]
      ∧ d2.Timestamps.CreatedAt = 5
      ∧ d2.Timestamps.DeliveredAt = d.Timestamps.DeliveredAt
      ∧ d2.Ownership = d.Ownership
      ∧ ∀ k2, k2 ≠ "k" →
          mapGet (KeyValueCache.UpdateValue { Contents := [("k", dNilOwner)] }
            "k" [7] aliceRef 5).2.Contents k2
          = mapGet (KeyValueCache.Contents { Contents := [("k", dNilOwner)] }) k2 :=
  updateValue_success_frame { Contents := [("k", dNilOwner)] }
    (KeyValueCache.UpdateValue { Contents := [("k", dNilOwner)] } "k" [7] aliceRef 5).2
    "k" [7] aliceRef 5 (by rfl)

/-- Claim C5: on a stored entry whose ownership email is nil, UpdateValue
and DeleteValue bypass the permission check and succeed for every
requester, while GetValue on the same entry succeeds only when the
requester holds all.select and otherwise fails with notPermitted. -/
theorem nil_owner_email_bypasses_update_delete_not_get
    (kvc : KeyValueCache) (key : String) (value : List Nat) (user : UserRef)
    (now : Nat) (d : KeyValueDelivery)
    (hget : mapGet kvc.Contents key = some d)
    (hnil : d.Ownership.Email = none) :
    (kvc.UpdateValue key value user now).1 = .ok ()
    ∧ (kvc.DeleteValue key user).1 = .ok d
    ∧ kvc.GetValue key user
        = (if user.user.Privileges.All.Select then .ok d else .error .notPermitted) := by
  refine ⟨?_, ?_, ?_⟩
  · simp [KeyValueCache.UpdateValue, KeyValueCache.LockAndDo, hget, hnil, isNilPtr]
  · simp [KeyValueCache.DeleteValue, KeyValueCache.Get, KeyValueCache.Delete,
      hget, hnil, isNilPtr]
  · simp only [KeyValueCache.GetValue, KeyValueCache.Get, hget, hnil, ownerPtrEq,
      User.CanSelect, Bool.false_and, Bool.or_false]

/-- Witness for claim C5 at a one-entry store with a nil owner. -/
theorem nil_owner_email_bypasses_update_delete_not_get_witness :
    (KeyValueCache.UpdateValue { Contents := [("k", dNilOwner)] } "k" [7] bobNoPerm 5).1
        = .ok ()
    ∧ (KeyValueCache.DeleteValue { Contents := [("k", dNilOwner)] } "k" bobNoPerm).1
        = .ok dNilOwner
    ∧ KeyValueCache.GetValue { Contents := [("k", dNilOwner)] } "k" bobNoPerm
        = (if bobNoPerm.user.Privileges.All.Select
           then .ok dNilOwner else .error .notPermitted) :=
  nil_owner_email_bypasses_update_delete_not_get
    { Contents := [("k", dNilOwner)] } "k" [7] bobNoPerm 5 dNilOwner
    (by decide) (by decide)

/-- Claim C4: for a key not yet present, a successful self-owned insert
followed immediately by a read through the same User struct succeeds and
delivers exactly the inserted value, with the recorded ownership email
and name being those of the owner. -/
theorem putValue_then_getValue_roundtrip
    (kvc kvc2 : KeyValueCache) (key : String) (value : List Nat)
    (owner : UserRef) (now : Nat)
    (hOwnedInsert : owner.user.Privileges.Owned.Insert = true)
    (hOwnedSelect : owner.user.Privileges.Owned.Select = true)
    (hput : kvc.PutValueWithOwner key value owner owner now = (.ok (), kvc2)) :
    ∃ d, kvc2.GetValue key owner = .ok d
      ∧ d.Value = value
      ∧ d.Ownership.Email = some { addr := owner.addr, val := owner.user.Email }
      ∧ d.Ownership.Name = some { addr := owner.addr, val := owner.user.Name } := by
  unfold KeyValueCache.PutValueWithOwner at hput
  by_cases hcond : (owner.user.Email == ""
      || !(owner.user.CanInsert (owner.user.Email == owner.user.Email))) = true
  · simp only [hcond, if_true] at hput
    exact absurd hput (by simp)
  · rw [Bool.not_eq_true] at hcond
    simp only [hcond, Bool.false_eq_true, if_false] at hput
    unfold KeyValueCache.Put at hput
    cases hm : mapGet kvc.Contents key with
    | some d0 => rw [hm] at hput; exact absurd hput (by simp)
    | none =>
      rw [hm] at hput
      injection hput with h1 h2
      refine ⟨{ Value := value, Timestamps := { CreatedAt := now, DeliveredAt := 0 },
                Ownership := { Email := some owner.emailPtr,
                               Name := some owner.namePtr } },
              ?_, rfl, ?_, ?_⟩
      · unfold KeyValueCache.GetValue KeyValueCache.Get
        rw [← h2]
        simp only [mapGet_mapSet_self]
        have hOwnerTrue : ownerPtrEq (some owner.emailPtr) owner.emailPtr = true := by
          simp [ownerPtrEq]
        rw [hOwnerTrue]
        simp [User.CanSelect, hOwnedSelect]
      · simp [UserRef.emailPtr]
      · simp [UserRef.namePtr]

/-- Witness for claim C4: aliceRef inserts k1 into the empty cache and
reads it back. -/
theorem putValue_then_getValue_roundtrip_witness :
    ∃ d, (NewCache.PutValueWithOwner "k1" [9, 9] aliceRef aliceRef 3).2.GetValue
            "k1" aliceRef = .ok d
      ∧ d.Value = [9, 9]
      ∧ d.Ownership.Email = some { addr := aliceRef.addr, val := aliceRef.user.Email }
      ∧ d.Ownership.Name = some { addr := aliceRef.addr, val := aliceRef.user.Name } :=
  putValue_then_getValue_roundtrip NewCache
    (NewCache.PutValueWithOwner "k1" [9, 9] aliceRef aliceRef 3).2
    "k1" [9, 9] aliceRef 3 (by decide) (by decide) (by rfl)

/-- Claim C1 is refuted on the code: in GetValue, UpdateValue and
DeleteValue the is-owner input to the permission decision is the Go
pointer comparison of the stored owner email pointer against the address
of the requesting User struct's Email field, not value equality of the
email strings.  A requester carrying exactly the owner's normalized email
but presented as a distinct User struct (a copy at another address) is
not recognised as the owner and is denied all three operations, while the
original struct at the original address is granted the read. -/
theorem ownership_is_reference_equality_not_value_equality :
    daveCopy.user.Email = daveAtInsert.user.Email
    ∧ daveCopy.user.Privileges.Owned.Select = true
    ∧ daveCopy.user.Privileges.Owned.Update = true
    ∧ daveCopy.user.Privileges.Owned.Delete = true
    ∧ cacheAfterDaveInsert.GetValue "note1" daveCopy = .error .notPermitted
    ∧ (cacheAfterDaveInsert.UpdateValue "note1" [105] daveCopy 8).1
        = .error .notPermitted
    ∧ (cacheAfterDaveInsert.DeleteValue "note1" daveCopy).1 = .error .notPermitted
    ∧ cacheAfterDaveInsert.GetValue "note1" daveAtInsert
        = .ok { Value := [104],
                Timestamps := { CreatedAt := 7, DeliveredAt := 0 },
                Ownership := { Email := some { addr := 0, val := "dave@test.com" },
                               Name := some { addr := 0, val := "Dave" } } } := by
  refine ⟨rfl, rfl, rfl, rfl, ?_, ?_, ?_, ?_⟩ <;> rfl

/-- Counterexample to claim C2: on the absent key k, an upsert by a user
without insert rights does not behave like Insert.  PutValue fails with
notPermitted, yet PutOrUpdateValue falls back to UpdateValue anyway and
surfaces keyNotFound, a different error kind. -/
theorem putOrUpdateValue_falls_back_on_notPermitted :
    mapGet NewCache.Contents "k" = none
    ∧ (NewCache.PutValue "k" [1] bobNoPerm 0).1 = .error .notPermitted
    ∧ (NewCache.PutOrUpdateValue "k" [1] bobNoPerm 0).1 = .error .keyNotFound
    ∧ (NewCache.PutOrUpdateValue "k" [1] bobNoPerm 0).1
        ≠ (NewCache.PutValue "k" [1] bobNoPerm 0).1 := by
  refine ⟨rfl, rfl, rfl, ?_⟩
  intro h
  have h2 : (Except.error GoError.keyNotFound : Except GoError Unit)
      = Except.error GoError.notPermitted := h
  simp at h2

/-- Claim C2 as amended: PutOrUpdateValue falls back to UpdateValue
whenever the attempted PutValue fails with any error, not only keyExists.
On an absent key it therefore returns exactly the result of PutValue only
when that insert succeeds; when the insert is refused with notPermitted,
the upsert instead surfaces keyNotFound from the fallback update and
leaves the store unchanged. -/
theorem putOrUpdateValue_fallback_characterization
    (kvc : KeyValueCache) (key : String) (value : List Nat) (user : UserRef)
    (now : Nat) :
    (∀ e kvc2, kvc.PutValue key value user now = (.error e, kvc2) →
        kvc.PutOrUpdateValue key value user now = kvc2.UpdateValue key value user now)
    ∧ (∀ kvc2, kvc.PutValue key value user now = (.ok (), kvc2) →
        kvc.PutOrUpdateValue key value user now = (.ok (), kvc2))
    ∧ (mapGet kvc.Contents key = none →
        ∀ e kvc2, kvc.PutValue key value user now = (.error e, kvc2) →
          e = .notPermitted ∧ kvc2 = kvc
          ∧ kvc.PutOrUpdateValue key value user now = (.error .keyNotFound, kvc)) := by
  refine ⟨?_, ?_, ?_⟩
  · intro e kvc2 h
    simp only [KeyValueCache.PutOrUpdateValue, h]
  · intro kvc2 h
    simp only [KeyValueCache.PutOrUpdateValue, h]
  · intro habs e kvc2 h
    have hput := h
    unfold KeyValueCache.PutValue KeyValueCache.PutValueWithOwner at hput
    by_cases hcond : (user.user.Email == ""
        || !(user.user.CanInsert (user.user.Email == user.user.Email))) = true
    · simp only [hcond, if_true] at hput
      injection hput with h1 h2
      injection h1 with h1
      refine ⟨h1.symm, h2.symm, ?_⟩
      simp only [KeyValueCache.PutOrUpdateValue, h, h2.symm, h1.symm]
      simp [KeyValueCache.UpdateValue, KeyValueCache.LockAndDo, habs]
    · rw [Bool.not_eq_true] at hcond
      simp only [hcond, Bool.false_eq_true, if_false] at hput
      unfold KeyValueCache.Put at hput
      rw [habs] at hput
      exact absurd hput (by simp)

/-- Witness for claim C2 at the empty cache with a user lacking insert
rights. -/
theorem putOrUpdateValue_fallback_characterization_witness :
    GoError.notPermitted = GoError.notPermitted
    ∧ NewCache = NewCache
    ∧ NewCache.PutOrUpdateValue "k" [1] bobNoPerm 0 = (.error .keyNotFound, NewCache) :=
  (putOrUpdateValue_fallback_characterization NewCache "k" [1] bobNoPerm 0).2.2
    (by decide) .notPermitted NewCache (by rfl)

/-- Counterexample to claim C3: an administrator holding all.insert but
whose email is the empty string may insert according to the claim, yet
PutValueWithOwner refuses with notPermitted, so a property of the
requester other than the stated permission condition decides the
outcome. -/
theorem putValueWithOwner_denies_empty_email_admin :
    emptyEmailAdmin.user.Privileges.All.Insert = true
    ∧ (NewCache.PutValueWithOwner "k" [1] emptyEmailAdmin emptyEmailAdmin 0).1
        = .error .notPermitted := by
  exact ⟨rfl, rfl⟩

/-- Claim C3 as amended: PutValueWithOwner fails with notPermitted exactly
when the requester email is empty, or the requester may not insert; may
insert means all.insert, or owner and requester emails are value-equal and
owned.insert holds.  No other property of the requester is consulted. -/
theorem putValueWithOwner_notPermitted_iff
    (kvc : KeyValueCache) (key : String) (value : List Nat)
    (owner user : UserRef) (now : Nat) :
    (kvc.PutValueWithOwner key value owner user now).1 = .error .notPermitted
    ↔ (user.user.Email = ""
        ∨ ¬(user.user.Privileges.All.Insert = true
            ∨ (owner.user.Email = user.user.Email
               ∧ user.user.Privileges.Owned.Insert = true))) := by
  by_cases he : user.user.Email = "" <;>
  cases hA : user.user.Privileges.All.Insert <;>
  by_cases hO : owner.user.Email = user.user.Email <;>
  cases hI : user.user.Privileges.Owned.Insert <;>
  cases hm : mapGet kvc.Contents key <;>
  simp [KeyValueCache.PutValueWithOwner, User.CanInsert, KeyValueCache.Put,
    hm, he, hA, hO, hI, beq_iff_eq]

/-- Witness for claim C3 applying the characterization at the empty-email
administrator. -/
theorem putValueWithOwner_notPermitted_iff_witness :
    emptyEmailAdmin.user.Email = ""
    ∨ ¬(emptyEmailAdmin.user.Privileges.All.Insert = true
        ∨ (emptyEmailAdmin.user.Email = emptyEmailAdmin.user.Email
           ∧ emptyEmailAdmin.user.Privileges.Owned.Insert = true)) :=
  (putValueWithOwner_notPermitted_iff NewCache "k" [1]
    emptyEmailAdmin emptyEmailAdmin 0).mp (by rfl)

/-- Claim C8: restoring the persisted snapshot of a registry yields a
registry with the same user table (hence the same privileges), the same
name, and the same last-modified timestamp as the persisted document,
while the token table is freshly empty, so no token issued before the
export resolves after the restore. -/
theorem authManager_export_import_roundtrip
    (am : AuthManager) (now : Nat) (options : UserOptions) :
    (ImportFrom (am.ExportTo now).1 options).Users = (am.ExportTo now).1.users
    ∧ (ImportFrom (am.ExportTo now).1 options).Users = am.Users
    ∧ (ImportFrom (am.ExportTo now).1 options).Timestamp = (am.ExportTo now).1.timestamp
    ∧ (ImportFrom (am.ExportTo now).1 options).Name = (am.ExportTo now).1.name
    ∧ (ImportFrom (am.ExportTo now).1 options).Tokens.tokens = []
    ∧ ∀ (t : String) (now2 : Nat),
        ((ImportFrom (am.ExportTo now).1 options).Tokens.GetToken t now2).1
          = .error .tokenInvalid := by
  refine ⟨rfl, rfl, rfl, rfl, rfl, ?_⟩
  intro t now2
  simp [ImportFrom, NewTokenManager, TokenManager.GetToken, mapGet]

/-- Witness for claim C8 at a concrete one-user registry. -/
theorem authManager_export_import_roundtrip_witness :
    (ImportFrom (AuthManager.ExportTo
        { Name := "main", Timestamp := 4,
          Users := [("alice@test.com", aliceRef.user)],
          Tokens := tmSample,
          Options := { Salt := "s", TokenExpiration := 10 } } 9).1
        { Salt := "s2", TokenExpiration := 20 }).Users
      = (AuthManager.ExportTo
        { Name := "main", Timestamp := 4,
          Users := [("alice@test.com", aliceRef.user)],
          Tokens := tmSample,
          Options := { Salt := "s", TokenExpiration := 10 } } 9).1.users
    ∧ (ImportFrom (AuthManager.ExportTo
        { Name := "main", Timestamp := 4,
          Users := [("alice@test.com", aliceRef.user)],
          Tokens := tmSample,
          Options := { Salt := "s", TokenExpiration := 10 } } 9).1
        { Salt := "s2", TokenExpiration := 20 }).Users
      = [("alice@test.com", aliceRef.user)]
    ∧ (ImportFrom (AuthManager.ExportTo
        { Name := "main", Timestamp := 4,
          Users := [("alice@test.com", aliceRef.user)],
          Tokens := tmSample,
          Options := { Salt := "s", TokenExpiration := 10 } } 9).1
        { Salt := "s2", TokenExpiration := 20 }).Timestamp
      = (AuthManager.ExportTo
        { Name := "main", Timestamp := 4,
          Users := [("alice@test.com", aliceRef.user)],
          Tokens := tmSample,
          Options := { Salt := "s", TokenExpiration := 10 } } 9).1.timestamp
    ∧ (ImportFrom (AuthManager.ExportTo
        { Name := "main", Timestamp := 4,
          Users := [("alice@test.com", aliceRef.user)],
          Tokens := tmSample,
          Options := { Salt := "s", TokenExpiration := 10 } } 9).1
        { Salt := "s2", TokenExpiration := 20 }).Name
      = (AuthManager.ExportTo
        { Name := "main", Timestamp := 4,
          Users := [("alice@test.com", aliceRef.user)],
          Tokens := tmSample,
          Options := { Salt := "s", TokenExpiration := 10 } } 9).1.name
    ∧ (ImportFrom (AuthManager.ExportTo
        { Name := "main", Timestamp := 4,
          Users := [("alice@test.com", aliceRef.user)],
          Tokens := tmSample,
          Options := { Salt := "s", TokenExpiration := 10 } } 9).1
        { Salt := "s2", TokenExpiration := 20 }).Tokens.tokens = []
    ∧ ∀ (t : String) (now2 : Nat),
        ((ImportFrom (AuthManager.ExportTo
            { Name := "main", Timestamp := 4,
              Users := [("alice@test.com", aliceRef.user)],
              Tokens := tmSample,
              Options := { Salt := "s", TokenExpiration := 10 } } 9).1
            { Salt := "s2", TokenExpiration := 20 }).Tokens.GetToken t now2).1
          = .error .tokenInvalid :=
  authManager_export_import_roundtrip
    { Name := "main", Timestamp := 4,
      Users := [("alice@test.com", aliceRef.user)],
      Tokens := tmSample,
      Options := { Salt := "s", TokenExpiration := 10 } } 9
    { Salt := "s2", TokenExpiration := 20 }

/-- Claim C9: issuing a token and resolving it strictly before its expiry
returns the issuing user and leaves the token table untouched; resolving
an unknown token fails with tokenInvalid; resolving a known token
strictly after its expiry fails with tokenExpired; and after revoking a
known token, resolving it fails with tokenInvalid. -/
theorem tokenManager_lifecycle :
    (∀ (tm : TokenManager) (u : UserRef) (tok : String) (now now2 : Nat),
        now2 < now + tm.expiration →
          (tm.CreateToken u tok now).1.User = u
          ∧ (tm.CreateToken u tok now).1.Expiry = now + tm.expiration
          ∧ (tm.CreateToken u tok now).2.GetToken tok now2
              = (.ok (tm.CreateToken u tok now).1, (tm.CreateToken u tok now).2))
    ∧ (∀ (tm : TokenManager) (tok : String) (now : Nat),
        mapGet tm.tokens tok = none →
          tm.GetToken tok now = (.error .tokenInvalid, tm))
    ∧ (∀ (tm : TokenManager) (tok : String) (now : Nat) (d : TokenData),
        mapGet tm.tokens tok = some d → d.Expiry < now →
          tm.GetToken tok now = (.error .tokenExpired, tm))
    ∧ (∀ (tm : TokenManager) (tok : String) (d : TokenData),
        mapGet tm.tokens tok = some d →
          (tm.DeleteToken tok).1 = .ok ()
          ∧ ∀ now, ((tm.DeleteToken tok).2.GetToken tok now).1
              = .error .tokenInvalid) := by
  refine ⟨?_, ?_, ?_, ?_⟩
  · intro tm u tok now now2 h
    refine ⟨rfl, rfl, ?_⟩
    simp only [TokenManager.CreateToken, TokenManager.GetToken, mapGet_mapSet_self]
    rw [if_neg (Nat.lt_asymm h)]
  · intro tm tok now h
    simp [TokenManager.GetToken, h]
  · intro tm tok now d h hexp
    simp [TokenManager.GetToken, h, hexp]
  · intro tm tok d h
    refine ⟨by simp [TokenManager.DeleteToken, h], ?_⟩
    intro now
    simp [TokenManager.DeleteToken, h, TokenManager.GetToken, mapGet_mapDel_self]

/-- Witness for claim C9 at a concrete one-token table. -/
theorem tokenManager_lifecycle_witness :
    (((NewTokenManager 10).CreateToken aliceRef "tok" 0).1.User = aliceRef
      ∧ ((NewTokenManager 10).CreateToken aliceRef "tok" 0).1.Expiry = 0 + 10
      ∧ ((NewTokenManager 10).CreateToken aliceRef "tok" 0).2.GetToken "tok" 5
          = (.ok ((NewTokenManager 10).CreateToken aliceRef "tok" 0).1,
             ((NewTokenManager 10).CreateToken aliceRef "tok" 0).2))
    ∧ (NewTokenManager 10).GetToken "nope" 0 = (.error .tokenInvalid, NewTokenManager 10)
    ∧ tmSample.GetToken "tok" 11 = (.error .tokenExpired, tmSample)
    ∧ ((tmSample.DeleteToken "tok").1 = .ok ()
        ∧ ((tmSample.DeleteToken "tok").2.GetToken "tok" 3).1 = .error .tokenInvalid) :=
  ⟨tokenManager_lifecycle.1 (NewTokenManager 10) aliceRef "tok" 0 5 (by decide),
   tokenManager_lifecycle.2.1 (NewTokenManager 10) "nope" 0 (by decide),
   tokenManager_lifecycle.2.2.1 tmSample "tok" 11
     { Token := "tok", User := aliceRef, Expiry := 10 } (by rfl) (by decide),
   (tokenManager_lifecycle.2.2.2 tmSample "tok"
     { Token := "tok", User := aliceRef, Expiry := 10 } (by rfl)).1,
   ((tokenManager_lifecycle.2.2.2 tmSample "tok"
     { Token := "tok", User := aliceRef, Expiry := 10 } (by rfl)).2 3)⟩

/-- Claim C10: the credential digest is the hash of the pipe-joined UUID,
plaintext and global salt, so it depends on the options only through the
salt; the password set by SetPassword verifies under the same options;
and CheckPassword accepts exactly when the stored digest equals, byte for
byte, the digest recomputed from the UUID, the candidate password and the
supplied salt. -/
theorem password_digest_scheme :
    (∀ (hash : String → List Nat) (uuid p : String) (o o2 : UserOptions),
        o.Salt = o2.Salt → genHashedPass hash uuid p o = genHashedPass hash uuid p o2)
    ∧ (∀ (hash : String → List Nat) (u : User) (p : String) (o : UserOptions),
        (u.SetPassword hash p o).CheckPassword hash p o = true)
    ∧ (∀ (hash : String → List Nat) (u : User) (q : String) (o2 : UserOptions),
        u.CheckPassword hash q o2 = true
          ↔ u.HashedPass = hash (String.intercalate "|" [u.Uuid, q, o2.Salt])) := by
  refine ⟨?_, ?_, ?_⟩
  · intro hash uuid p o o2 h
    simp [genHashedPass, h]
  · intro hash u p o
    simp [User.SetPassword, User.CheckPassword, genHashedPass]
  · intro hash u q o2
    simp [User.CheckPassword, genHashedPass]

/-- Witness for claim C10 with a concrete stand-in hash function. -/
theorem password_digest_scheme_witness :
    genHashedPass (fun s => [s.length]) "u1" "pw" { Salt := "s", TokenExpiration := 0 }
      = genHashedPass (fun s => [s.length]) "u1" "pw" { Salt := "s", TokenExpiration := 5 }
    ∧ ((aliceRef.user.SetPassword (fun s => [s.length]) "pw"
          { Salt := "s", TokenExpiration := 0 }).CheckPassword
          (fun s => [s.length]) "pw" { Salt := "s", TokenExpiration := 0 } = true) :=
  ⟨password_digest_scheme.1 (fun s => [s.length]) "u1" "pw"
      { Salt := "s", TokenExpiration := 0 } { Salt := "s", TokenExpiration := 5 } rfl,
   password_digest_scheme.2.1 (fun s => [s.length]) aliceRef.user "pw"
      { Salt := "s", TokenExpiration := 0 }⟩
